import Mathlib

/-!
Verification of the research-lab-manager data model and its query/report
engine (src/app.py).  The relational rows are embedded as Lean structures,
each SQL statement of the application as a Lean function over an explicit
database value, and dates as natural numbers (any order-isomorphic encoding
of calendar dates; CURRENT_DATE becomes an explicit `today` argument).
-/

namespace ResearchLab

/-- A row of LAB_MEMBER: MID, Name, MType, JoinDate. -/
structure Member where
  mid : Nat
  name : String
  mtype : String
  joinDate : Nat
  deriving Repr, DecidableEq

/-- A row of FACULTY: MID, Department. -/
structure FacultyRow where
  mid : Nat
  department : String
  deriving Repr, DecidableEq

/-- A row of STUDENT: MID, SID, Level, Major. -/
structure StudentRow where
  mid : Nat
  sid : String
  level : String
  major : String
  deriving Repr, DecidableEq

/-- A row of COLLABORATOR: MID, Affiliation, Biography (nullable). -/
structure CollabRow where
  mid : Nat
  affiliation : String
  biography : Option String
  deriving Repr, DecidableEq

/-- A row of PROJECT: PID, Title, SDate, EDate (nullable), EDuration,
Status, LeaderMID. -/
structure Project where
  pid : Nat
  title : String
  sdate : Nat
  edate : Option Nat
  eduration : Nat
  status : String
  leaderMID : Nat
  deriving Repr, DecidableEq

/-- A row of WORKS: MID, PID, Role, Hours. -/
structure WorkRow where
  mid : Nat
  pid : Nat
  role : String
  hours : ℚ
  deriving Repr, DecidableEq

/-- A row of USES: MID, EID, SDate, EDate (nullable), Purpose. -/
structure UseRow where
  mid : Nat
  eid : Nat
  sdate : Nat
  edate : Option Nat
  purpose : String
  deriving Repr, DecidableEq

/-- A row of EQUIPMENT: EID, EName, EType, PDate, Status. -/
structure EquipmentRow where
  eid : Nat
  ename : String
  etype : String
  pdate : Nat
  status : String
  deriving Repr, DecidableEq

/-- A row of GRANT_TABLE: GID, Source, Budget, StartDate, Duration. -/
structure GrantRow where
  gid : Nat
  source : String
  budget : ℚ
  startDate : Nat
  duration : Nat
  deriving Repr, DecidableEq

/-- A row of FUNDS: GID, PID. -/
structure FundRow where
  gid : Nat
  pid : Nat
  deriving Repr, DecidableEq

/-- A row of PUBLICATION: PubID, Title, PubDate, Venue. -/
structure Publication where
  pubid : Nat
  title : String
  pubdate : Nat
  venue : String
  deriving Repr, DecidableEq

/-- A row of PUBLISHES: MID, PubID. -/
structure PublishRow where
  mid : Nat
  pubid : Nat
  deriving Repr, DecidableEq

/-- The stored state: one list of rows per table of the schema. -/
structure DB where
  members : List Member
  faculty : List FacultyRow
  students : List StudentRow
  collabs : List CollabRow
  projects : List Project
  works : List WorkRow
  uses : List UseRow
  equipment : List EquipmentRow
  grants : List GrantRow
  funds : List FundRow
  publications : List Publication
  publishes : List PublishRow
  deriving Repr, DecidableEq

/-- The empty database. -/
def emptyDB : DB := ⟨[], [], [], [], [], [], [], [], [], [], [], []⟩

/-- Lexicographic order on strings through their character lists: the model
of the collation behind ORDER BY on a text column. -/
def strLe (a b : String) : Prop := a.data ≤ b.data

/-- Strict form of `strLe`. -/
def strLt (a b : String) : Prop := a.data < b.data

instance : DecidableRel strLe := fun a b => inferInstanceAs (Decidable (a.data ≤ b.data))

instance : DecidableRel strLt := fun a b => inferInstanceAs (Decidable (a.data < b.data))

theorem strLe_total (a b : String) : strLe a b ∨ strLe b a := le_total a.data b.data

theorem strLe_trans {a b c : String} (h1 : strLe a b) (h2 : strLe b c) : strLe a c :=
  le_trans h1 h2

instance : IsTotal String strLe := ⟨strLe_total⟩

instance : IsTrans String strLe := ⟨fun _ _ _ => strLe_trans⟩

/-- Failure kinds the application layer can see.  src/app.py defines no typed
error values of its own: every failure it observes is the storage engine
rejecting a statement (a psycopg2 `Error`), which `QueryExecutor` returns as
`(False, message)`.  We model that single kind as `constraintViolation`. -/
inductive DBErr where
  | constraintViolation
  deriving Repr, DecidableEq

/-! ## Equipment usage (`EquipmentManager`, src/app.py:653-826) -/

/-- The predicate "currently active" exactly as the queries write it:
`u.EDate IS NULL OR u.EDate >= CURRENT_DATE` (src/app.py:659, 686, 703, 803).
`today` stands for CURRENT_DATE. -/
def activeUse (today : Nat) (u : UseRow) : Bool :=
  match u.edate with
  | none => true
  | some d => decide (today ≤ d)

/-- Per-equipment count of currently-active usage records, as
`EquipmentManager.list_all_equipment` computes it (src/app.py:657-661):
`COUNT(CASE WHEN u.EDate IS NULL OR u.EDate >= CURRENT_DATE THEN 1 END)`
over the usage rows of the equipment. -/
def current_users (db : DB) (eid today : Nat) : Nat :=
  (db.uses.filter (fun u => u.eid == eid && activeUse today u)).length

/-- Comparison used for ORDER BY EID. -/
def eidLe (a b : EquipmentRow) : Prop := a.eid ≤ b.eid

instance : DecidableRel eidLe := fun a b => inferInstanceAs (Decidable (a.eid ≤ b.eid))

instance : IsTotal EquipmentRow eidLe := ⟨fun a b => Nat.le_total a.eid b.eid⟩

instance : IsTrans EquipmentRow eidLe := ⟨fun _ _ _ => Nat.le_trans⟩

/-- The equipment selection list `add_usage` displays before prompting
(src/app.py:778): `SELECT EID, EName, Status FROM EQUIPMENT WHERE
Status != 'Retired' ORDER BY EID`.  It is display only; the chosen EID is
read afterwards as a free integer. -/
def usage_equipment_choices (db : DB) : List EquipmentRow :=
  List.insertionSort eidLe (db.equipment.filter (fun e => !(e.status == "Retired")))

/-- Embeds `EquipmentManager.add_usage` (src/app.py:776-794).  After showing
the selection list the function reads the inputs and issues
`INSERT INTO USES (MID, EID, SDate, EDate, Purpose) VALUES (...)`
unconditionally: the application performs no capacity check and no check of
the equipment status before the insert.  The storage engine can still reject
the row on its key constraints: the DDL is not under src/, so following the
schema of spec sections 3 and 6 we model the composite primary key
(MID, EID, SDate) of USES and the foreign keys to LAB_MEMBER and
EQUIPMENT. -/
def add_usage (db : DB) (mid eid sdate : Nat) (edate : Option Nat)
    (purpose : String) : Except DBErr DB :=
  if db.members.any (fun m => m.mid == mid)
      && db.equipment.any (fun e => e.eid == eid)
      && !(db.uses.any (fun u => u.mid == mid && u.eid == eid && u.sdate == sdate)) then
    .ok { db with uses := db.uses ++ [⟨mid, eid, sdate, edate, purpose⟩] }
  else
    .error .constraintViolation

/-- A database in which equipment 1 already has exactly 3 currently-active
usage records (members 1, 2, 3, all with no end date) and member 4 exists. -/
def dbCap : DB :=
  { emptyDB with
    members := [⟨1, "M1", "Student", 0⟩, ⟨2, "M2", "Student", 0⟩,
                ⟨3, "M3", "Student", 0⟩, ⟨4, "M4", "Student", 0⟩]
    equipment := [⟨1, "Microscope", "Optical", 0, "Available"⟩]
    uses := [⟨1, 1, 10, none, "a"⟩, ⟨2, 1, 10, none, "b"⟩, ⟨3, 1, 10, none, "c"⟩] }

/-- `dbCap` after the fourth active usage record is inserted. -/
def dbCap4 : DB :=
  { dbCap with uses := dbCap.uses ++ [⟨4, 1, 20, none, "experiment"⟩] }

/-- C1: the capacity rule is NOT enforced by the code.  In `dbCap`,
equipment 1 has exactly 3 currently-active usage records on day 50, yet
`add_usage` inserts a fourth active record (no end date) successfully — the
claimed `CapacityExceeded` rejection does not exist in `add_usage`
(src/app.py:776-794 issues the INSERT with no count-then-check), and the
active count rises to 4. -/
theorem addUsage_inserts_fourth_active_record :
    current_users dbCap 1 50 = 3 ∧
    add_usage dbCap 4 1 20 none "experiment" = .ok dbCap4 ∧
    current_users dbCap4 1 50 = 4 :=
  ⟨rfl, rfl, rfl⟩

/-- C10: `add_usage` places no precondition on the equipment status.  For any
database, a member `mid` and a piece of equipment `e` whose status is
"Retired", recording usage succeeds (subject only to the storage-engine key
constraints) and appends the row, even though `e` is absent from the
displayed selection list. -/
theorem addUsage_ignores_equipment_status (db : DB) (e : EquipmentRow)
    (mid sdate : Nat) (edate : Option Nat) (purpose : String)
    (hmem : db.members.any (fun m => m.mid == mid) = true)
    (he : e ∈ db.equipment)
    (hret : e.status = "Retired")
    (hpk : ∀ u ∈ db.uses, ¬(u.mid = mid ∧ u.eid = e.eid ∧ u.sdate = sdate)) :
    add_usage db mid e.eid sdate edate purpose =
      .ok { db with uses := db.uses ++ [⟨mid, e.eid, sdate, edate, purpose⟩] } ∧
    e ∉ usage_equipment_choices db := by
  constructor
  · have heq : db.equipment.any (fun x => x.eid == e.eid) = true :=
      List.any_eq_true.mpr ⟨e, he, by simp⟩
    have huse : db.uses.any
        (fun u => u.mid == mid && u.eid == e.eid && u.sdate == sdate) = false := by
      rw [← Bool.not_eq_true, List.any_eq_true]
      rintro ⟨u, hu, hb⟩
      simp only [Bool.and_eq_true, beq_iff_eq] at hb
      exact hpk u hu ⟨hb.1.1, hb.1.2, hb.2⟩
    simp [add_usage, hmem, heq, huse]
  · intro hmeml
    rw [usage_equipment_choices, List.mem_insertionSort, List.mem_filter] at hmeml
    simp [hret] at hmeml

/-- Witness for C10: in `dbCap` (equipment 1 made Retired) the insert still
succeeds while the selection list omits the equipment. -/
def dbRet : DB :=
  { dbCap with equipment := [⟨1, "Microscope", "Optical", 0, "Retired"⟩] }

theorem addUsage_ignores_equipment_status_witness :
    add_usage dbRet 4 1 20 none "experiment" =
      .ok { dbRet with uses := dbRet.uses ++ [⟨4, 1, 20, none, "experiment"⟩] } ∧
    (⟨1, "Microscope", "Optical", 0, "Retired"⟩ : EquipmentRow) ∉
      usage_equipment_choices dbRet :=
  addUsage_ignores_equipment_status dbRet ⟨1, "Microscope", "Optical", 0, "Retired"⟩
    4 20 none "experiment" (by decide) (by decide) rfl (by decide)

/-! ## Member creation (`MemberManager.add_member`, src/app.py:350-384) -/

/-- The type-specific detail of a member, one variant per detail table. -/
inductive MemberDetail where
  | facultyD (department : String)
  | studentD (sid level major : String)
  | collabD (affiliation : String) (biography : Option String)
  deriving Repr, DecidableEq

/-- The MType string the CLI records for each detail shape. -/
def MemberDetail.typeName : MemberDetail → String
  | .facultyD _ => "Faculty"
  | .studentD _ _ _ => "Student"
  | .collabD _ _ => "Collaborator"

/-- The surrogate MID that `INSERT ... RETURNING MID` hands back: strictly
larger than every MID already stored. -/
def freshMid (db : DB) : Nat :=
  (db.members.map (fun m => m.mid)).foldr max 0 + 1

/-- Embeds `MemberManager.add_member` (src/app.py:350-384).  Each statement
runs through `QueryExecutor` in a connection of its own, so the base
`INSERT INTO LAB_MEMBER ... RETURNING MID` commits on its own before the
detail insert is attempted.  `detailOk` models whether the detail insert
succeeds (the detail statement committing) or fails (storage failure, or the
operator abandoning the detail prompts).  On failure the code only prints
"Member created but details may be incomplete." and leaves the committed base
row in place; nothing is rolled back.  Returns the new state and the MID when
the detail insert went through. -/
def add_member (db : DB) (name : String) (joinDate : Nat)
    (detail : MemberDetail) (detailOk : Bool) : DB × Option Nat :=
  let mid := freshMid db
  let db1 := { db with members := db.members ++ [⟨mid, name, detail.typeName, joinDate⟩] }
  if detailOk then
    match detail with
    | .facultyD dept => ({ db1 with faculty := db1.faculty ++ [⟨mid, dept⟩] }, some mid)
    | .studentD s l mj => ({ db1 with students := db1.students ++ [⟨mid, s, l, mj⟩] }, some mid)
    | .collabD a b => ({ db1 with collabs := db1.collabs ++ [⟨mid, a, b⟩] }, some mid)
  else (db1, none)

/-- All detail rows attached to a member id, across the three detail tables,
read back as detail values. -/
def detailRecords (db : DB) (mid : Nat) : List MemberDetail :=
  (db.faculty.filter (fun f => f.mid == mid)).map (fun f => .facultyD f.department) ++
  (db.students.filter (fun s => s.mid == mid)).map (fun s => .studentD s.sid s.level s.major) ++
  (db.collabs.filter (fun c => c.mid == mid)).map (fun c => .collabD c.affiliation c.biography)

/-- Counterexample to C2 as stated: on the empty database, creating a Faculty
member whose detail insert fails leaves the base LAB_MEMBER row behind with
no detail row anywhere — the base insert is not rolled back and "zero rows
remain" is false. -/
theorem addMember_detail_failure_keeps_base_row :
    (add_member emptyDB "Ada" 0 (.facultyD "CS") false).1.members =
      [⟨1, "Ada", "Faculty", 0⟩] ∧
    (add_member emptyDB "Ada" 0 (.facultyD "CS") false).1.members ≠ [] ∧
    detailRecords (add_member emptyDB "Ada" 0 (.facultyD "CS") false).1 1 = [] :=
  ⟨rfl, by decide, rfl⟩

/-- A member of a list is bounded by the fold of max over it. -/
theorem le_foldr_max (l : List Nat) (a : Nat) (h : a ∈ l) : a ≤ l.foldr max 0 := by
  induction l with
  | nil => cases h
  | cons b t ih =>
    rcases List.mem_cons.mp h with h1 | h1
    · simp [h1]
    · exact le_trans (ih h1) (le_max_right b (t.foldr max 0))

/-- Every stored member has an MID below the fresh one. -/
theorem mid_lt_freshMid (db : DB) (m : Member) (hm : m ∈ db.members) :
    m.mid < freshMid db := by
  have h := le_foldr_max (db.members.map (fun x => x.mid)) m.mid
    (List.mem_map.mpr ⟨m, hm, rfl⟩)
  unfold freshMid
  omega

/-- C2 (amended): `add_member` is a two-step, two-transaction operation.  In
the resulting state the new MID always carries exactly one base record; when
the detail insert succeeds the new MID carries exactly the one matching
detail record, and when it fails the base record remains with zero detail
records — no rollback happens. -/
theorem addMember_two_step_outcomes (db : DB) (name : String) (jd : Nat)
    (detail : MemberDetail) (detailOk : Bool)
    (hf : ∀ f ∈ db.faculty, f.mid ≠ freshMid db)
    (hs : ∀ s ∈ db.students, s.mid ≠ freshMid db)
    (hc : ∀ c ∈ db.collabs, c.mid ≠ freshMid db) :
    ((add_member db name jd detail detailOk).1.members.filter
        (fun m => m.mid == freshMid db)) =
      [⟨freshMid db, name, detail.typeName, jd⟩] ∧
    (detailOk = true →
      detailRecords (add_member db name jd detail detailOk).1 (freshMid db) = [detail]) ∧
    (detailOk = false →
      detailRecords (add_member db name jd detail detailOk).1 (freshMid db) = []) := by
  have hbase : ∀ m ∈ db.members, (m.mid == freshMid db) = false := by
    intro m hm
    simpa using Nat.ne_of_lt (mid_lt_freshMid db m hm)
  have hfF : db.faculty.filter (fun f => f.mid == freshMid db) = [] :=
    List.filter_eq_nil_iff.mpr (fun f hfm => by simpa using hf f hfm)
  have hsF : db.students.filter (fun s => s.mid == freshMid db) = [] :=
    List.filter_eq_nil_iff.mpr (fun s hsm => by simpa using hs s hsm)
  have hcF : db.collabs.filter (fun c => c.mid == freshMid db) = [] :=
    List.filter_eq_nil_iff.mpr (fun c hcm => by simpa using hc c hcm)
  have hmF : db.members.filter (fun m => m.mid == freshMid db) = [] :=
    List.filter_eq_nil_iff.mpr (fun m hm => by simp [hbase m hm])
  cases detailOk with
  | false =>
    refine ⟨?_, by simp, fun _ => ?_⟩ <;>
      cases detail <;>
        simp [add_member, detailRecords, List.filter_append, hmF, hfF, hsF, hcF]
  | true =>
    refine ⟨?_, fun _ => ?_, by simp⟩ <;>
      cases detail <;>
        simp [add_member, detailRecords, List.filter_append, hmF, hfF, hsF, hcF]

/-- Witness for C2 (amended) at the empty database, both for a succeeding and
(via the Student shape) a failing detail insert. -/
theorem addMember_two_step_outcomes_witness :
    ((add_member emptyDB "Bo" 3 (.studentD "s1" "Senior" "Physics") true).1.members.filter
        (fun m => m.mid == freshMid emptyDB)) =
      [⟨freshMid emptyDB, "Bo", "Student", 3⟩] ∧
    (true = true →
      detailRecords (add_member emptyDB "Bo" 3 (.studentD "s1" "Senior" "Physics") true).1
        (freshMid emptyDB) = [.studentD "s1" "Senior" "Physics"]) ∧
    (true = false →
      detailRecords (add_member emptyDB "Bo" 3 (.studentD "s1" "Senior" "Physics") true).1
        (freshMid emptyDB) = []) :=
  addMember_two_step_outcomes emptyDB "Bo" 3 (.studentD "s1" "Senior" "Physics") true
    (by simp [emptyDB]) (by simp [emptyDB]) (by simp [emptyDB])

/-! ## Project creation (`ProjectManager.add_project`, src/app.py:499-529) -/

/-- The surrogate PID that `INSERT ... RETURNING PID` hands back. -/
def freshPid (db : DB) : Nat :=
  (db.projects.map (fun p => p.pid)).foldr max 0 + 1

/-- Comparison on member names, for ORDER BY lm.Name. -/
def memberNameLe (a b : Member × FacultyRow) : Prop := strLe a.1.name b.1.name

instance : DecidableRel memberNameLe :=
  fun a b => inferInstanceAs (Decidable (strLe a.1.name b.1.name))

instance : IsTotal (Member × FacultyRow) memberNameLe :=
  ⟨fun a b => strLe_total a.1.name b.1.name⟩

instance : IsTrans (Member × FacultyRow) memberNameLe :=
  ⟨fun _ _ _ => strLe_trans⟩

/-- The faculty list `add_project` displays before reading the leader MID
(src/app.py:511): `SELECT ... FROM LAB_MEMBER lm JOIN FACULTY f ON
lm.MID = f.MID ORDER BY lm.Name`.  It is display only; the chosen MID is
read afterwards as a free integer. -/
def leader_choices (db : DB) : List (Member × FacultyRow) :=
  List.insertionSort memberNameLe
    (db.members.flatMap (fun m =>
      (db.faculty.filter (fun f => f.mid == m.mid)).map (fun f => (m, f))))

/-- The outcome of `add_project`: the early return of src/app.py:518-520
(the displayed faculty list is empty, "No faculty found." — no statement is
issued), a storage-engine rejection of the INSERT, or the created project
together with the returned PID. -/
inductive AddProjectResult where
  | noFaculty
  | storageReject (e : DBErr)
  | created (db : DB) (pid : Nat)
  deriving Repr, DecidableEq

/-- Embeds `ProjectManager.add_project` (src/app.py:499-529).  When the
displayed faculty list is empty the function prints "No faculty found." and
returns without issuing any INSERT (src/app.py:513-520).  Otherwise it reads
a leader MID — any integer, not restricted to the displayed list — and issues
`INSERT INTO PROJECT (Title, SDate, EDate, EDuration, Status, LeaderMID)
VALUES (...) RETURNING PID` with no application-level check that the chosen
leader is a Faculty member and no check that the end date is on or after the
start date.  The DDL is not under src/; following spec sections 3 and 6 we
model the storage-engine foreign key LeaderMID referencing LAB_MEMBER. -/
def add_project (db : DB) (title : String) (sdate : Nat) (edate : Option Nat)
    (duration : Nat) (status : String) (leader : Nat) : AddProjectResult :=
  if (leader_choices db).isEmpty then
    .noFaculty
  else if db.members.any (fun m => m.mid == leader) then
    .created
      { db with projects :=
          db.projects ++ [⟨freshPid db, title, sdate, edate, duration, status, leader⟩] }
      (freshPid db)
  else
    .storageReject .constraintViolation

/-- A database with one Faculty member (MID 2) — so the displayed faculty
list is nonempty and the INSERT is reached — and one Student member
(MID 1). -/
def dbStu : DB :=
  { emptyDB with
    members := [⟨1, "Stu", "Student", 0⟩, ⟨2, "Prof", "Faculty", 0⟩]
    faculty := [⟨2, "CS"⟩]
    students := [⟨1, "s42", "Senior", "Physics"⟩] }

/-- `dbStu` after the invalid project is nevertheless created. -/
def dbStuP : DB :=
  { dbStu with projects := [⟨1, "P", 100, some 50, 6, "Active", 1⟩] }

/-- Counterexample to C3 as stated: in `dbStu` the faculty list is nonempty
(so the INSERT is reached), member 1 is a Student with no FACULTY row, and
the requested end date 50 lies before the start date 100, yet `add_project`
with leader 1 succeeds and creates the project row — neither the claimed
`ValidationError` nor the claimed `InvalidRange` failure happens, and a row
is inserted. -/
theorem addProject_accepts_student_leader_and_reversed_dates :
    dbStu.faculty = [⟨2, "CS"⟩] ∧
    leader_choices dbStu ≠ [] ∧
    (∀ f ∈ dbStu.faculty, f.mid ≠ 1) ∧
    (∀ m ∈ dbStu.members, m.mid = 1 → m.mtype = "Student") ∧
    (50 : Nat) < 100 ∧
    add_project dbStu "P" 100 (some 50) 6 "Active" 1 = .created dbStuP 1 ∧
    dbStuP.projects = [⟨1, "P", 100, some 50, 6, "Active", 1⟩] :=
  ⟨rfl, by decide, by decide, by decide, by decide, by decide, rfl⟩

/-- C3 (amended): once the displayed faculty list is nonempty — with an
empty list `add_project` aborts with "No faculty found." and inserts
nothing — the operation validates nothing at the application layer beyond
what the storage engine enforces.  Whenever the chosen leader MID references
any existing member — Faculty or not — and whatever the dates, the insert
succeeds and appends exactly the given row; the faculty list is only
displayed for selection. -/
theorem addProject_inserts_without_validation (db : DB) (title : String)
    (sdate : Nat) (edate : Option Nat) (duration : Nat) (status : String)
    (m : Member) (hfac : leader_choices db ≠ []) (hm : m ∈ db.members) :
    add_project db title sdate edate duration status m.mid =
      .created
        { db with projects :=
            db.projects ++ [⟨freshPid db, title, sdate, edate, duration, status, m.mid⟩] }
        (freshPid db) := by
  have hne : (leader_choices db).isEmpty = false :=
    Bool.eq_false_iff.mpr (fun h => hfac (List.isEmpty_iff.mp h))
  have hmem : db.members.any (fun x => x.mid == m.mid) = true :=
    List.any_eq_true.mpr ⟨m, hm, by simp⟩
  simp [add_project, hne, hmem]

/-- Witness for C3 (amended): in `dbStu` the faculty list is nonempty and the
Student member 1 is accepted as leader of a project whose end date precedes
its start date. -/
theorem addProject_inserts_without_validation_witness :
    add_project dbStu "P" 100 (some 50) 6 "Active"
        (Member.mid ⟨1, "Stu", "Student", 0⟩) =
      .created
        { dbStu with projects :=
            dbStu.projects ++
              [⟨freshPid dbStu, "P", 100, some 50, 6, "Active",
                Member.mid ⟨1, "Stu", "Student", 0⟩⟩] }
        (freshPid dbStu) :=
  addProject_inserts_without_validation dbStu "P" 100 (some 50) 6 "Active"
    ⟨1, "Stu", "Student", 0⟩ (by decide) (by decide)

/-! ## Most-published member(s)
(`ReportManager.member_with_most_publications`, src/app.py:833-844) -/

/-- Publication count of one member: the number of PUBLISHES rows carrying
the MID (`COUNT(p.PubID)` after the left join, 0 when no row matches). -/
def pubCount (publishes : List PublishRow) (mid : Nat) : Nat :=
  (publishes.filter (fun p => p.mid == mid)).length

/-- The CTE pub_counts (src/app.py:834-837): every member paired with its
publication count, zero-publication members included via the left join. -/
def pub_counts (db : DB) : List (Member × Nat) :=
  db.members.map (fun m => (m, pubCount db.publishes m.mid))

/-- `SELECT MAX(pub_count) FROM pub_counts` (0 on the empty table, where the
report returns no rows anyway). -/
def maxPubCount (db : DB) : Nat :=
  ((pub_counts db).map (fun r => r.2)).foldr max 0

/-- Comparison on the name column of a counted row, for ORDER BY name. -/
def countedNameLe (a b : Member × Nat) : Prop := strLe a.1.name b.1.name

instance : DecidableRel countedNameLe :=
  fun a b => inferInstanceAs (Decidable (strLe a.1.name b.1.name))

instance : IsTotal (Member × Nat) countedNameLe := ⟨fun a b => strLe_total a.1.name b.1.name⟩

instance : IsTrans (Member × Nat) countedNameLe := ⟨fun _ _ _ => strLe_trans⟩

/-- Embeds `ReportManager.member_with_most_publications` (src/app.py:833-844):
`SELECT * FROM pub_counts WHERE pub_count = (SELECT MAX(pub_count) FROM
pub_counts) ORDER BY name`. -/
def member_with_most_publications (db : DB) : List (Member × Nat) :=
  List.insertionSort countedNameLe
    ((pub_counts db).filter (fun r => r.2 == maxPubCount db))

/-- The fold of max over a nonempty list is one of its members. -/
theorem foldr_max_mem (l : List Nat) (h : l ≠ []) : l.foldr max 0 ∈ l := by
  induction l with
  | nil => exact absurd rfl h
  | cons b t ih =>
    by_cases ht : t = []
    · simp [ht]
    · rcases max_cases b (t.foldr max 0) with ⟨he, _⟩ | ⟨he, _⟩
      · simp [List.foldr_cons, he]
      · have := ih ht
        simp only [List.foldr_cons, he]
        exact List.mem_cons_of_mem b (ih ht)

/-- C4: for every database with at least one member, the report returns
exactly the rows of members whose publication count equals the maximum
count over all members — every tied member included, zero-publication
members counted at 0 — and the result is ordered by member name. -/
theorem mostPublications_returns_all_ties_sorted (db : DB)
    (hne : db.members ≠ []) :
    (∀ m c, (m, c) ∈ member_with_most_publications db ↔
      m ∈ db.members ∧ c = pubCount db.publishes m.mid ∧ c = maxPubCount db) ∧
    (∀ m ∈ db.members, pubCount db.publishes m.mid ≤ maxPubCount db) ∧
    (∃ m ∈ db.members, pubCount db.publishes m.mid = maxPubCount db) ∧
    List.Sorted countedNameLe (member_with_most_publications db) := by
  refine ⟨?_, ?_, ?_, ?_⟩
  · intro m c
    rw [member_with_most_publications, List.mem_insertionSort, List.mem_filter]
    constructor
    · rintro ⟨hmem, hcnt⟩
      rcases List.mem_map.mp hmem with ⟨a, ha, he⟩
      rcases Prod.mk.injEq .. ▸ he with ⟨ham, hac⟩
      subst ham
      simp only [beq_iff_eq] at hcnt
      exact ⟨ha, hac.symm, hcnt⟩
    · rintro ⟨hm, hc, hmax⟩
      subst hc
      exact ⟨List.mem_map.mpr ⟨m, hm, rfl⟩, by simpa using hmax⟩
  · intro m hm
    exact le_foldr_max _ _
      (List.mem_map.mpr ⟨(m, pubCount db.publishes m.mid),
        List.mem_map.mpr ⟨m, hm, rfl⟩, rfl⟩)
  · have hne2 : ((pub_counts db).map (fun r => r.2)) ≠ [] := by
      simp [pub_counts, hne]
    have hmem := foldr_max_mem _ hne2
    rcases List.mem_map.mp hmem with ⟨⟨m, c⟩, hr, he⟩
    rcases List.mem_map.mp hr with ⟨a, ha, hae⟩
    rcases Prod.mk.injEq .. ▸ hae with ⟨ham, hac⟩
    subst ham
    exact ⟨a, ha, by rw [hac]; exact he⟩
  · exact List.sorted_insertionSort countedNameLe _

/-- The ranking-determinism example of the spec: A with 3 publications, B
with 3, C with 1. -/
def dbRank : DB :=
  { emptyDB with
    members := [⟨1, "A", "Faculty", 0⟩, ⟨2, "B", "Student", 0⟩, ⟨3, "C", "Student", 0⟩]
    publishes := [⟨1, 10⟩, ⟨1, 11⟩, ⟨1, 12⟩, ⟨2, 10⟩, ⟨2, 11⟩, ⟨2, 13⟩, ⟨3, 10⟩] }

/-- Witness for C4 on the {A: 3, B: 3, C: 1} example; additionally the tied
pair {A, B} is returned in name order and C is excluded. -/
theorem mostPublications_returns_all_ties_sorted_witness :
    ((∀ m c, (m, c) ∈ member_with_most_publications dbRank ↔
      m ∈ dbRank.members ∧ c = pubCount dbRank.publishes m.mid ∧ c = maxPubCount dbRank) ∧
    (∀ m ∈ dbRank.members, pubCount dbRank.publishes m.mid ≤ maxPubCount dbRank) ∧
    (∃ m ∈ dbRank.members, pubCount dbRank.publishes m.mid = maxPubCount dbRank) ∧
    List.Sorted countedNameLe (member_with_most_publications dbRank)) ∧
    member_with_most_publications dbRank =
      [(⟨1, "A", "Faculty", 0⟩, 3), (⟨2, "B", "Student", 0⟩, 3)] :=
  ⟨mostPublications_returns_all_ties_sorted dbRank (by decide), by decide⟩

/-! ## Assignment upsert (`ProjectManager._assign_team`, src/app.py:531-541) -/

/-- Embeds the statement `_assign_team` issues per member (src/app.py:539):
`INSERT INTO WORKS (MID, PID, Role, Hours) VALUES (...) ON CONFLICT
(MID, PID) DO UPDATE SET Role = EXCLUDED.Role, Hours = EXCLUDED.Hours`.
When a row with the composite key exists its role and hours are replaced,
otherwise a fresh row is appended. -/
def assign_member (works : List WorkRow) (mid pid : Nat) (role : String)
    (hours : ℚ) : List WorkRow :=
  if works.any (fun w => w.mid == mid && w.pid == pid) then
    works.map (fun w =>
      if w.mid == mid && w.pid == pid then { w with role := role, hours := hours } else w)
  else
    works ++ [⟨mid, pid, role, hours⟩]

/-- The unique-constraint invariant of WORKS: at most one row per
(MID, PID) pair. -/
def PairUnique (works : List WorkRow) : Prop :=
  works.Pairwise (fun a b => a.mid ≠ b.mid ∨ a.pid ≠ b.pid)

/-- Filter commutes with a map that does not change the filtered value. -/
theorem filter_map_comm (f : WorkRow → WorkRow) (p : WorkRow → Bool)
    (hp : ∀ w, p (f w) = p w) (l : List WorkRow) :
    (l.map f).filter p = (l.filter p).map f := by
  induction l with
  | nil => rfl
  | cons a t ih =>
    by_cases h : p a = true <;> simp [List.filter_cons, hp a, h, ih]

/-- Under the unique constraint, one upsert leaves exactly one row for the
pair — carrying the written role and hours — keeps every other row
untouched, and preserves the constraint. -/
theorem assign_member_single (works : List WorkRow) (mid pid : Nat)
    (role : String) (hours : ℚ) (hu : PairUnique works) :
    (assign_member works mid pid role hours).filter
        (fun w => w.mid == mid && w.pid == pid) = [⟨mid, pid, role, hours⟩] ∧
    (assign_member works mid pid role hours).filter
        (fun w => !(w.mid == mid && w.pid == pid)) =
      works.filter (fun w => !(w.mid == mid && w.pid == pid)) ∧
    PairUnique (assign_member works mid pid role hours) := by
  rw [assign_member]
  by_cases hex : works.any (fun w => w.mid == mid && w.pid == pid) = true
  · rw [if_pos hex]
    have hfix : ∀ w : WorkRow,
        (if w.mid == mid && w.pid == pid then
          ({ w with role := role, hours := hours } : WorkRow) else w).mid = w.mid ∧
        (if w.mid == mid && w.pid == pid then
          ({ w with role := role, hours := hours } : WorkRow) else w).pid = w.pid := by
      intro w
      by_cases h : (w.mid == mid && w.pid == pid) = true <;> simp [h]
    have hkey : ∀ w : WorkRow,
        ((if w.mid == mid && w.pid == pid then
            ({ w with role := role, hours := hours } : WorkRow) else w).mid == mid &&
         (if w.mid == mid && w.pid == pid then
            ({ w with role := role, hours := hours } : WorkRow) else w).pid == pid) =
        (w.mid == mid && w.pid == pid) := by
      intro w
      rw [(hfix w).1, (hfix w).2]
    have hone : ∃ w0 : WorkRow,
        works.filter (fun w => w.mid == mid && w.pid == pid) = [w0] ∧
        w0.mid = mid ∧ w0.pid = pid := by
      have hall : ∀ w ∈ works.filter (fun w => w.mid == mid && w.pid == pid),
          w.mid = mid ∧ w.pid = pid := by
        intro w hw
        have := (List.mem_filter.mp hw).2
        simp only [Bool.and_eq_true, beq_iff_eq] at this
        exact this
      have hpw : (works.filter (fun w => w.mid == mid && w.pid == pid)).Pairwise
          (fun a b => a.mid ≠ b.mid ∨ a.pid ≠ b.pid) :=
        hu.sublist (List.filter_sublist works)
      rcases List.any_eq_true.mp hex with ⟨w0, hw0, hkey0⟩
      have hmem : w0 ∈ works.filter (fun w => w.mid == mid && w.pid == pid) :=
        List.mem_filter.mpr ⟨hw0, hkey0⟩
      cases hflt : works.filter (fun w => w.mid == mid && w.pid == pid) with
      | nil => rw [hflt] at hmem; cases hmem
      | cons a t =>
        cases t with
        | nil => exact ⟨a, rfl, hall a (by rw [hflt]; exact List.mem_cons_self ..)⟩
        | cons b t2 =>
          have ha := hall a (by rw [hflt]; exact List.mem_cons_self ..)
          have hb := hall b (by rw [hflt]; simp)
          rw [hflt] at hpw
          rcases (List.pairwise_cons.mp hpw).1 b (List.mem_cons_self ..) with h | h
          · exact absurd (ha.1.trans hb.1.symm) h
          · exact absurd (ha.2.trans hb.2.symm) h
    rcases hone with ⟨w0, hflt, hw0m, hw0p⟩
    refine ⟨?_, ?_, ?_⟩
    · rw [filter_map_comm _ _ hkey, hflt]
      simp [hw0m, hw0p]
    · rw [filter_map_comm _ _ (fun w => by rw [hkey w]) works]
      have hid : ∀ w ∈ works.filter (fun w => !(w.mid == mid && w.pid == pid)),
          (if w.mid == mid && w.pid == pid then
            ({ w with role := role, hours := hours } : WorkRow) else w) = w := by
        intro w hw
        have := (List.mem_filter.mp hw).2
        simp only [Bool.not_eq_true'] at this
        simp [this]
      exact (List.map_congr_left hid).trans (List.map_id' _)
    · refine List.Pairwise.map _ ?_ hu
      intro a b hab
      rw [(hfix a).1, (hfix a).2, (hfix b).1, (hfix b).2]
      exact hab
  · rw [if_neg hex]
    have hnone : ∀ w ∈ works, (w.mid == mid && w.pid == pid) = false := by
      intro w hw
      by_contra hcon
      exact hex (List.any_eq_true.mpr ⟨w, hw, by simpa using hcon⟩)
    refine ⟨?_, ?_, ?_⟩
    · rw [List.filter_append, List.filter_eq_nil_iff.mpr
        (fun w hw => by simp [hnone w hw])]
      simp
    · rw [List.filter_append]
      have : ([(⟨mid, pid, role, hours⟩ : WorkRow)].filter
          (fun w => !(w.mid == mid && w.pid == pid))) = [] := by simp
      rw [this, List.append_nil]
    · rw [PairUnique, List.pairwise_append]
      refine ⟨hu, List.pairwise_singleton .., ?_⟩
      intro a ha b hb
      rw [List.mem_singleton] at hb
      subst hb
      have := hnone a ha
      simp only [Bool.and_eq_false_iff, beq_eq_false_iff_ne] at this
      simpa using this

/-- C7: two successive `assign_member` calls for the same (member, project)
pair with different role/hours leave exactly one WORKS row for the pair,
holding the role and hours of the second call; all other rows are unchanged
and the one-row-per-pair invariant is preserved. -/
theorem assignMember_upsert_idempotent (works : List WorkRow) (mid pid : Nat)
    (r1 r2 : String) (h1 h2 : ℚ) (hu : PairUnique works) :
    (assign_member (assign_member works mid pid r1 h1) mid pid r2 h2).filter
        (fun w => w.mid == mid && w.pid == pid) = [⟨mid, pid, r2, h2⟩] ∧
    (assign_member (assign_member works mid pid r1 h1) mid pid r2 h2).filter
        (fun w => !(w.mid == mid && w.pid == pid)) =
      works.filter (fun w => !(w.mid == mid && w.pid == pid)) ∧
    PairUnique (assign_member (assign_member works mid pid r1 h1) mid pid r2 h2) := by
  obtain ⟨-, hframe1, hu1⟩ := assign_member_single works mid pid r1 h1 hu
  obtain ⟨hone2, hframe2, hu2⟩ :=
    assign_member_single (assign_member works mid pid r1 h1) mid pid r2 h2 hu1
  exact ⟨hone2, hframe2.trans hframe1, hu2⟩

/-- Witness for C7 on a concrete WORKS table: re-assigning member 1 to
project 7 replaces the row written by the first call. -/
theorem assignMember_upsert_idempotent_witness :
    (assign_member (assign_member [⟨2, 7, "PI", 5⟩] 1 7 "RA" 10) 1 7 "TA" 4).filter
        (fun w => w.mid == 1 && w.pid == 7) = [⟨1, 7, "TA", 4⟩] ∧
    (assign_member (assign_member [⟨2, 7, "PI", 5⟩] 1 7 "RA" 10) 1 7 "TA" 4).filter
        (fun w => !(w.mid == 1 && w.pid == 7)) =
      [(⟨2, 7, "PI", 5⟩ : WorkRow)].filter (fun w => !(w.mid == 1 && w.pid == 7)) ∧
    PairUnique (assign_member (assign_member [⟨2, 7, "PI", 5⟩] 1 7 "RA" 10) 1 7 "TA" 4) :=
  assignMember_upsert_idempotent [⟨2, 7, "PI", 5⟩] 1 7 "RA" "TA" 10 4
    (List.pairwise_singleton ..)

/-! ## Funded active projects in a period
(`ReportManager.funded_active_projects_in_period`, src/app.py:858-880) -/

/-- The WHERE clause of the period query exactly as written
(src/app.py:865-866): `p.SDate <= periodEnd AND (p.EDate IS NULL OR
p.EDate >= periodStart)`. -/
def inPeriod (p : Project) (ps pe : Nat) : Bool :=
  decide (p.sdate ≤ pe) &&
    (match p.edate with
     | none => true
     | some d => decide (ps ≤ d))

/-- The inner join `PROJECT p JOIN FUNDS f ON p.PID = f.PID`
(src/app.py:865). -/
def projectFundRows (db : DB) : List (Project × FundRow) :=
  db.projects.flatMap (fun p =>
    (db.funds.filter (fun f => f.pid == p.pid)).map (fun f => (p, f)))

/-- Embeds the count query of
`ReportManager.funded_active_projects_in_period` (src/app.py:865-867):
`SELECT COUNT(DISTINCT p.PID) FROM PROJECT p JOIN FUNDS f ON p.PID = f.PID
WHERE p.SDate <= %s AND (p.EDate IS NULL OR p.EDate >= %s)`. -/
def funded_active_projects_in_period (db : DB) (ps pe : Nat) : Nat :=
  (((projectFundRows db).filter (fun r => inPeriod r.1 ps pe)).map
      (fun r => r.1.pid)).dedup.length

/-- Whether a project has at least one funding link. -/
def hasFunding (db : DB) (p : Project) : Bool :=
  db.funds.any (fun f => f.pid == p.pid)

/-- C5: when PIDs are unique (the PROJECT primary key), the period count
equals the number of projects that have at least one funding link and whose
active interval overlaps the period; a project funded by several grants is
counted once. -/
theorem fundedActiveCount_distinct_overlapping (db : DB) (ps pe : Nat)
    (hnod : (db.projects.map (fun p => p.pid)).Nodup) :
    funded_active_projects_in_period db ps pe =
      (db.projects.filter (fun p => hasFunding db p && inPeriod p ps pe)).length := by
  have hmemiff : ∀ x : Nat,
      (x ∈ ((projectFundRows db).filter (fun r => inPeriod r.1 ps pe)).map
          (fun r => r.1.pid)) ↔
      (x ∈ (db.projects.filter (fun p => hasFunding db p && inPeriod p ps pe)).map
          (fun p => p.pid)) := by
    intro x
    simp only [List.mem_map, List.mem_filter, projectFundRows, List.mem_flatMap,
      hasFunding, List.any_eq_true, Bool.and_eq_true]
    constructor
    · rintro ⟨⟨p, f⟩, ⟨⟨q, hq, f2, ⟨hf2, hf2p⟩, he⟩, hper⟩, hx⟩
      have hqp : q = p := congrArg Prod.fst he
      subst hqp
      exact ⟨q, ⟨hq, ⟨⟨f2, hf2, hf2p⟩, hper⟩⟩, hx⟩
    · rintro ⟨p, ⟨hp, ⟨⟨f, hf, hfp⟩, hper⟩⟩, hx⟩
      exact ⟨(p, f), ⟨⟨p, hp, f, ⟨hf, hfp⟩, rfl⟩, hper⟩, hx⟩
  have hnodR : ((db.projects.filter
      (fun p => hasFunding db p && inPeriod p ps pe)).map (fun p => p.pid)).Nodup :=
    hnod.sublist ((List.filter_sublist db.projects).map (fun p => p.pid))
  have htof : (((projectFundRows db).filter (fun r => inPeriod r.1 ps pe)).map
      (fun r => r.1.pid)).toFinset =
      ((db.projects.filter (fun p => hasFunding db p && inPeriod p ps pe)).map
        (fun p => p.pid)).toFinset := by
    ext x
    simp only [List.mem_toFinset]
    exact hmemiff x
  calc funded_active_projects_in_period db ps pe
      = (((projectFundRows db).filter (fun r => inPeriod r.1 ps pe)).map
          (fun r => r.1.pid)).toFinset.card := (List.card_toFinset _).symm
    _ = ((db.projects.filter (fun p => hasFunding db p && inPeriod p ps pe)).map
          (fun p => p.pid)).toFinset.card := by rw [htof]
    _ = ((db.projects.filter (fun p => hasFunding db p && inPeriod p ps pe)).map
          (fun p => p.pid)).dedup.length := List.card_toFinset _
    _ = ((db.projects.filter (fun p => hasFunding db p && inPeriod p ps pe)).map
          (fun p => p.pid)).length := by rw [List.dedup_eq_self.mpr hnodR]
    _ = (db.projects.filter (fun p => hasFunding db p && inPeriod p ps pe)).length :=
        List.length_map ..

/-- The period-overlap example of the spec, with dates encoded as YYYYMMDD
numbers: one project running 2023-01-01 to 2023-06-30, funded by two grants
(so DISTINCT matters). -/
def dbPeriod : DB :=
  { emptyDB with
    projects := [⟨1, "P", 20230101, some 20230630, 6, "Active", 9⟩]
    grants := [⟨1, "NSF", 100, 20230101, 12⟩, ⟨2, "NIH", 200, 20230101, 12⟩]
    funds := [⟨1, 1⟩, ⟨2, 1⟩] }

/-- Witness for C5 on the spec example: the doubly-funded project is counted
once for the overlapping period [2023-06-01, 2023-12-31] and not at all for
[2023-07-01, 2023-12-31]. -/
theorem fundedActiveCount_distinct_overlapping_witness :
    (funded_active_projects_in_period dbPeriod 20230601 20231231 =
      (dbPeriod.projects.filter
        (fun p => hasFunding dbPeriod p && inPeriod p 20230601 20231231)).length) ∧
    funded_active_projects_in_period dbPeriod 20230601 20231231 = 1 ∧
    funded_active_projects_in_period dbPeriod 20230701 20231231 = 0 :=
  ⟨fundedActiveCount_distinct_overlapping dbPeriod 20230601 20231231 (by decide),
   by decide, by decide⟩

/-! ## Average publications by major
(`ReportManager.avg_publications_by_major`, src/app.py:846-856) -/

/-- The left-join partners of one student row in
`STUDENT s LEFT JOIN PUBLISHES p ON s.MID = p.MID`: one row per authorship,
or a single row with a NULL right side when the student has none. -/
def joinOne (publishes : List PublishRow) (s : StudentRow) :
    List (StudentRow × Option PublishRow) :=
  if (publishes.filter (fun p => p.mid == s.mid)).isEmpty then [(s, none)]
  else (publishes.filter (fun p => p.mid == s.mid)).map (fun p => (s, some p))

/-- The whole left join of src/app.py:849. -/
def studentPubRows (db : DB) : List (StudentRow × Option PublishRow) :=
  db.students.flatMap (joinOne db.publishes)

/-- The group `GROUP BY s.Major` selects for one major. -/
def rowsForMajor (db : DB) (mj : String) : List (StudentRow × Option PublishRow) :=
  (studentPubRows db).filter (fun r => r.1.major == mj)

/-- `COUNT(DISTINCT s.MID)` within the group (src/app.py:847). -/
def studentsInMajor (db : DB) (mj : String) : Nat :=
  ((rowsForMajor db mj).map (fun r => r.1.mid)).dedup.length

/-- `COUNT(p.PubID)` within the group: non-NULL join partners only. -/
def totalPubsInMajor (db : DB) (mj : String) : Nat :=
  ((rowsForMajor db mj).filter (fun r => r.2.isSome)).length

/-- `ROUND(x, 2)` of PostgreSQL on a nonnegative DECIMAL value: round half
away from zero at two decimal places. -/
def round2 (q : ℚ) : ℚ := (⌊q * 100 + 1 / 2⌋ : ℚ) / 100

/-- Embeds the per-major value of `ReportManager.avg_publications_by_major`
(src/app.py:846-856): `ROUND(COUNT(p.PubID)::DECIMAL /
NULLIF(COUNT(DISTINCT s.MID), 0), 2)`, NULL (none) when NULLIF fires. -/
def avg_publications_by_major (db : DB) (mj : String) : Option ℚ :=
  if studentsInMajor db mj = 0 then none
  else some (round2 ((totalPubsInMajor db mj : ℚ) / (studentsInMajor db mj : ℚ)))

/-- Every join row of a student carries that student on the left. -/
theorem joinOne_fst (publishes : List PublishRow) (s : StudentRow) :
    ∀ r ∈ joinOne publishes s, r.1 = s := by
  intro r hr
  rw [joinOne] at hr
  split at hr
  · rw [List.mem_singleton] at hr
    rw [hr]
  · rcases List.mem_map.mp hr with ⟨p, _, he⟩
    rw [← he]

/-- The left join keeps every student: its row list is never empty. -/
theorem joinOne_ne_nil (publishes : List PublishRow) (s : StudentRow) :
    joinOne publishes s ≠ [] := by
  rw [joinOne]
  split
  · simp
  · rename_i h
    simp only [ne_eq, List.map_eq_nil_iff]
    intro hnil
    rw [hnil] at h
    exact h rfl

/-- Grouping by major commutes with the join: the group rows are the join of
the students of that major. -/
theorem rowsForMajor_eq (db : DB) (mj : String) :
    rowsForMajor db mj =
      (db.students.filter (fun s => s.major == mj)).flatMap (joinOne db.publishes) := by
  rw [rowsForMajor, studentPubRows]
  induction db.students with
  | nil => rfl
  | cons s t ih =>
    rw [List.flatMap_cons, List.filter_append, ih, List.filter_cons]
    by_cases h : (s.major == mj) = true
    · rw [if_pos h, List.flatMap_cons]
      congr 1
      refine List.filter_eq_self.mpr ?_
      intro r hr
      rw [joinOne_fst db.publishes s r hr]
      exact h
    · rw [if_neg h]
      have hnil : (joinOne db.publishes s).filter (fun r => r.1.major == mj) = [] :=
        List.filter_eq_nil_iff.mpr
          (fun r hr => by rw [joinOne_fst db.publishes s r hr]; simp [h])
      rw [hnil, List.nil_append]

/-- The non-NULL join rows of one student are exactly its authorships. -/
theorem joinOne_count (publishes : List PublishRow) (s : StudentRow) :
    ((joinOne publishes s).filter (fun r => r.2.isSome)).length =
      pubCount publishes s.mid := by
  rw [joinOne, pubCount]
  by_cases h : (publishes.filter (fun p => p.mid == s.mid)).isEmpty = true
  · rw [if_pos h, List.isEmpty_iff.mp h]
    rfl
  · rw [if_neg h]
    have : ((publishes.filter (fun p => p.mid == s.mid)).map
        (fun p => (s, some p))).filter (fun r => r.2.isSome) =
        (publishes.filter (fun p => p.mid == s.mid)).map (fun p => (s, some p)) :=
      List.filter_eq_self.mpr (fun r hr => by
        rcases List.mem_map.mp hr with ⟨p, _, he⟩
        rw [← he]
        rfl)
    rw [this, List.length_map]

/-- Summing the non-NULL rows over a student list gives the total number of
authorships of those students. -/
theorem flatMap_pub_total (publishes : List PublishRow) (l : List StudentRow) :
    ((l.flatMap (joinOne publishes)).filter (fun r => r.2.isSome)).length =
      (l.map (fun s => pubCount publishes s.mid)).sum := by
  induction l with
  | nil => rfl
  | cons s t ih =>
    rw [List.flatMap_cons, List.filter_append, List.length_append,
      joinOne_count, ih, List.map_cons, List.sum_cons]

/-- The left side MIDs of a joined student list form the same set as the
MIDs of the students themselves. -/
theorem flatMap_mid_toFinset (publishes : List PublishRow) (l : List StudentRow) :
    ((l.flatMap (joinOne publishes)).map (fun r => r.1.mid)).toFinset =
      (l.map (fun s => s.mid)).toFinset := by
  ext x
  simp only [List.mem_toFinset, List.mem_map, List.mem_flatMap]
  constructor
  · rintro ⟨r, ⟨s, hs, hr⟩, hx⟩
    exact ⟨s, hs, by rw [← joinOne_fst publishes s r hr]; exact hx⟩
  · rintro ⟨s, hs, hx⟩
    obtain ⟨r, hr⟩ := List.exists_mem_of_ne_nil _ (joinOne_ne_nil publishes s)
    exact ⟨r, ⟨s, hs, hr⟩, by rw [joinOne_fst publishes s r hr]; exact hx⟩

/-- C6: for every major that has at least one student (and the STUDENT
primary key unique), the group is populated — no division by zero — the
distinct-student count is the number of students of the major, the
publication total is the sum of their authorship counts, and the reported
average is that total over that count rounded to two decimals. -/
theorem avgPublicationsByMajor_formula (db : DB) (mj : String)
    (hnod : (db.students.map (fun s => s.mid)).Nodup)
    (hex : ∃ s ∈ db.students, s.major = mj) :
    0 < studentsInMajor db mj ∧
    studentsInMajor db mj = (db.students.filter (fun s => s.major == mj)).length ∧
    totalPubsInMajor db mj =
      ((db.students.filter (fun s => s.major == mj)).map
        (fun s => pubCount db.publishes s.mid)).sum ∧
    avg_publications_by_major db mj =
      some (round2 ((totalPubsInMajor db mj : ℚ) / (studentsInMajor db mj : ℚ))) := by
  have hstu : studentsInMajor db mj =
      (db.students.filter (fun s => s.major == mj)).length := by
    have hnodF : ((db.students.filter (fun s => s.major == mj)).map
        (fun s => s.mid)).Nodup :=
      hnod.sublist ((List.filter_sublist db.students).map (fun s => s.mid))
    calc studentsInMajor db mj
        = ((rowsForMajor db mj).map (fun r => r.1.mid)).toFinset.card :=
          (List.card_toFinset _).symm
      _ = ((db.students.filter (fun s => s.major == mj)).map
            (fun s => s.mid)).toFinset.card := by
          rw [rowsForMajor_eq, flatMap_mid_toFinset]
      _ = ((db.students.filter (fun s => s.major == mj)).map
            (fun s => s.mid)).dedup.length := List.card_toFinset _
      _ = ((db.students.filter (fun s => s.major == mj)).map
            (fun s => s.mid)).length := by rw [List.dedup_eq_self.mpr hnodF]
      _ = (db.students.filter (fun s => s.major == mj)).length := List.length_map ..
  have hpos : 0 < studentsInMajor db mj := by
    rw [hstu]
    rcases hex with ⟨s, hs, hmj⟩
    have : s ∈ db.students.filter (fun x => x.major == mj) :=
      List.mem_filter.mpr ⟨hs, by simp [hmj]⟩
    exact List.length_pos.mpr (List.ne_nil_of_mem this)
  refine ⟨hpos, hstu, ?_, ?_⟩
  · rw [totalPubsInMajor, rowsForMajor_eq, flatMap_pub_total]
  · rw [avg_publications_by_major, if_neg (Nat.pos_iff_ne_zero.mp hpos)]

/-- The average-computation example of the spec: major Physics with students
S1 (2 publications) and S2 (0 publications). -/
def dbPhys : DB :=
  { emptyDB with
    members := [⟨1, "S1", "Student", 0⟩, ⟨2, "S2", "Student", 0⟩]
    students := [⟨1, "s1", "Senior", "Physics"⟩, ⟨2, "s2", "Junior", "Physics"⟩]
    publishes := [⟨1, 10⟩, ⟨1, 11⟩] }

/-- Witness for C6 on the Physics example; additionally the reported figures
are students = 2, total_pubs = 2 and avg_pubs = 1.00. -/
theorem avgPublicationsByMajor_formula_witness :
    (0 < studentsInMajor dbPhys "Physics" ∧
    studentsInMajor dbPhys "Physics" =
      (dbPhys.students.filter (fun s => s.major == "Physics")).length ∧
    totalPubsInMajor dbPhys "Physics" =
      ((dbPhys.students.filter (fun s => s.major == "Physics")).map
        (fun s => pubCount dbPhys.publishes s.mid)).sum ∧
    avg_publications_by_major dbPhys "Physics" =
      some (round2 ((totalPubsInMajor dbPhys "Physics" : ℚ) /
        (studentsInMajor dbPhys "Physics" : ℚ)))) ∧
    studentsInMajor dbPhys "Physics" = 2 ∧
    totalPubsInMajor dbPhys "Physics" = 2 ∧
    avg_publications_by_major dbPhys "Physics" = some 1 := by
  have h1 : studentsInMajor dbPhys "Physics" = 2 := by decide
  have h2 : totalPubsInMajor dbPhys "Physics" = 2 := by decide
  refine ⟨avgPublicationsByMajor_formula dbPhys "Physics" (by decide)
    ⟨⟨1, "s1", "Senior", "Physics"⟩, by decide, rfl⟩, h1, h2, ?_⟩
  rw [avg_publications_by_major, h1, h2]
  norm_num [round2]

/-! ## Grant and publication rosters
(`ReportManager.list_all_grants`, src/app.py:920-930;
`ReportManager.list_all_publications`, src/app.py:907-918) -/

/-- Comparison for ORDER BY g.StartDate DESC. -/
def grantStartDesc (a b : GrantRow) : Prop := b.startDate ≤ a.startDate

instance : DecidableRel grantStartDesc :=
  fun a b => inferInstanceAs (Decidable (b.startDate ≤ a.startDate))

instance : IsTotal GrantRow grantStartDesc := ⟨fun a b => Nat.le_total b.startDate a.startDate⟩

instance : IsTrans GrantRow grantStartDesc :=
  ⟨fun _ _ _ h1 h2 => Nat.le_trans h2 h1⟩

/-- The titles a grant funds, one per FUNDS row, through
`LEFT JOIN FUNDS f ON g.GID = f.GID LEFT JOIN PROJECT p ON f.PID = p.PID`
(src/app.py:923); PID is the PROJECT primary key, so each link joins at most
one project, and NULL titles vanish inside STRING_AGG. -/
def fundedTitles (db : DB) (g : GrantRow) : List String :=
  (db.funds.filter (fun f => f.gid == g.gid)).filterMap
    (fun f => (db.projects.find? (fun p => p.pid == f.pid)).map (fun p => p.title))

/-- `COALESCE(STRING_AGG(p.Title, ', '), 'None')` (src/app.py:922) — note:
no DISTINCT and no ORDER BY inside the aggregate. -/
def grantProjectsField (db : DB) (g : GrantRow) : String :=
  if (fundedTitles db g).isEmpty then "None"
  else String.intercalate ", " (fundedTitles db g)

/-- Embeds `ReportManager.list_all_grants` (src/app.py:920-930): every grant
with its aggregated project titles, ordered by start date descending. -/
def list_all_grants (db : DB) : List (GrantRow × String) :=
  (List.insertionSort grantStartDesc db.grants).map
    (fun g => (g, grantProjectsField db g))

/-- Comparison for ORDER BY pub.PubDate DESC. -/
def pubDateDesc (a b : Publication) : Prop := b.pubdate ≤ a.pubdate

instance : DecidableRel pubDateDesc :=
  fun a b => inferInstanceAs (Decidable (b.pubdate ≤ a.pubdate))

instance : IsTotal Publication pubDateDesc := ⟨fun a b => Nat.le_total b.pubdate a.pubdate⟩

instance : IsTrans Publication pubDateDesc :=
  ⟨fun _ _ _ h1 h2 => Nat.le_trans h2 h1⟩

/-- The author names of a publication, one per PUBLISHES row, through the
left joins of src/app.py:910-911; MID is the LAB_MEMBER primary key. -/
def authorNames (db : DB) (pub : Publication) : List String :=
  (db.publishes.filter (fun pr => pr.pubid == pub.pubid)).filterMap
    (fun pr => (db.members.find? (fun m => m.mid == pr.mid)).map (fun m => m.name))

/-- `COALESCE(STRING_AGG(lm.Name, ', ' ORDER BY lm.Name), 'No authors')`
(src/app.py:909) — names ordered, but no DISTINCT. -/
def pubAuthorsField (db : DB) (pub : Publication) : String :=
  if (authorNames db pub).isEmpty then "No authors"
  else String.intercalate ", " (List.insertionSort strLe (authorNames db pub))

/-- Embeds `ReportManager.list_all_publications` (src/app.py:907-918). -/
def list_all_publications (db : DB) : List (Publication × String) :=
  (List.insertionSort pubDateDesc db.publications).map
    (fun pub => (pub, pubAuthorsField db pub))

/-- A grant funding two distinct projects that share the title "X". -/
def gX : GrantRow := ⟨1, "NSF", 100, 0, 12⟩

/-- Database for the duplicate-title counterexample. -/
def dbDup : DB :=
  { emptyDB with
    grants := [gX]
    projects := [⟨1, "X", 0, none, 6, "Active", 9⟩, ⟨2, "X", 5, none, 6, "Active", 9⟩]
    funds := [⟨1, 1⟩, ⟨1, 2⟩] }

/-- Counterexample to C8 as stated: grant 1 funds two distinct projects both
titled "X", and the roster renders "X, X" — the concatenated title list is
NOT deduplicated (a deduplicated rendering would be "X"). -/
theorem grantRoster_duplicate_titles_not_deduplicated :
    fundedTitles dbDup gX = ["X", "X"] ∧
    (fundedTitles dbDup gX).dedup = ["X"] ∧
    list_all_grants dbDup = [(gX, "X, X")] ∧
    ("X, X" : String) ≠ "X" := by
  refine ⟨rfl, by decide, rfl, by decide⟩

/-- C8 (amended): every grant appears in the roster with the comma-joined
list of its funded-project titles in link order, duplicates preserved, and
"None" when it funds no resolvable project; every publication appears with
the comma-joined list of its author names sorted by name, duplicates
preserved, and "No authors" when it has none; the rosters are ordered by
start date and publication date descending. -/
theorem grant_publication_rosters_rendering (db : DB) (g : GrantRow)
    (pub : Publication) (hg : g ∈ db.grants) (hp : pub ∈ db.publications) :
    (g, grantProjectsField db g) ∈ list_all_grants db ∧
    (pub, pubAuthorsField db pub) ∈ list_all_publications db ∧
    List.Sorted (fun a b : GrantRow × String => grantStartDesc a.1 b.1)
      (list_all_grants db) ∧
    List.Sorted (fun a b : Publication × String => pubDateDesc a.1 b.1)
      (list_all_publications db) ∧
    (fundedTitles db g = [] → grantProjectsField db g = "None") ∧
    (fundedTitles db g ≠ [] →
      grantProjectsField db g = String.intercalate ", " (fundedTitles db g)) ∧
    (authorNames db pub = [] → pubAuthorsField db pub = "No authors") ∧
    (authorNames db pub ≠ [] →
      pubAuthorsField db pub =
        String.intercalate ", " (List.insertionSort strLe (authorNames db pub)) ∧
      List.Sorted strLe (List.insertionSort strLe (authorNames db pub)) ∧
      List.Perm (List.insertionSort strLe (authorNames db pub)) (authorNames db pub)) := by
  refine ⟨?_, ?_, ?_, ?_, ?_, ?_, ?_, ?_⟩
  · exact List.mem_map.mpr ⟨g, (List.mem_insertionSort _).mpr hg, rfl⟩
  · exact List.mem_map.mpr ⟨pub, (List.mem_insertionSort _).mpr hp, rfl⟩
  · exact List.pairwise_map.mpr (List.sorted_insertionSort grantStartDesc db.grants)
  · exact List.pairwise_map.mpr (List.sorted_insertionSort pubDateDesc db.publications)
  · intro h
    rw [grantProjectsField, if_pos (List.isEmpty_iff.mpr h)]
  · intro h
    rw [grantProjectsField, if_neg (by simpa using h)]
  · intro h
    rw [pubAuthorsField, if_pos (List.isEmpty_iff.mpr h)]
  · intro h
    refine ⟨by rw [pubAuthorsField, if_neg (by simpa using h)],
      List.sorted_insertionSort strLe _, List.perm_insertionSort strLe _⟩

/-- Witness for C8 (amended) on `dbDup` extended with a publication whose two
authors share a name. -/
def pubY : Publication := ⟨7, "Y", 9, "LabCon"⟩

def dbDup2 : DB :=
  { dbDup with
    members := [⟨1, "Ann", "Student", 0⟩, ⟨2, "Ann", "Faculty", 0⟩]
    publications := [pubY]
    publishes := [⟨1, 7⟩, ⟨2, 7⟩] }

theorem grant_publication_rosters_rendering_witness :
    ((gX, grantProjectsField dbDup2 gX) ∈ list_all_grants dbDup2 ∧
    (pubY, pubAuthorsField dbDup2 pubY) ∈ list_all_publications dbDup2 ∧
    List.Sorted (fun a b : GrantRow × String => grantStartDesc a.1 b.1)
      (list_all_grants dbDup2) ∧
    List.Sorted (fun a b : Publication × String => pubDateDesc a.1 b.1)
      (list_all_publications dbDup2) ∧
    (fundedTitles dbDup2 gX = [] → grantProjectsField dbDup2 gX = "None") ∧
    (fundedTitles dbDup2 gX ≠ [] →
      grantProjectsField dbDup2 gX = String.intercalate ", " (fundedTitles dbDup2 gX)) ∧
    (authorNames dbDup2 pubY = [] → pubAuthorsField dbDup2 pubY = "No authors") ∧
    (authorNames dbDup2 pubY ≠ [] →
      pubAuthorsField dbDup2 pubY =
        String.intercalate ", " (List.insertionSort strLe (authorNames dbDup2 pubY)) ∧
      List.Sorted strLe (List.insertionSort strLe (authorNames dbDup2 pubY)) ∧
      List.Perm (List.insertionSort strLe (authorNames dbDup2 pubY))
        (authorNames dbDup2 pubY))) ∧
    pubAuthorsField dbDup2 pubY = "Ann, Ann" :=
  ⟨grant_publication_rosters_rendering dbDup2 gX pubY (by decide) (by decide),
   by decide⟩

/-! ## Project roster (`ProjectManager.list_all_projects`, src/app.py:446-456) -/

/-- Comparison for `ORDER BY p.Status, p.SDate DESC`: status ascending in
collation order, then start date descending. -/
def projOrder (a b : Project) : Prop :=
  strLt a.status b.status ∨ (a.status = b.status ∧ b.sdate ≤ a.sdate)

instance : DecidableRel projOrder :=
  fun a b => inferInstanceAs
    (Decidable (strLt a.status b.status ∨ (a.status = b.status ∧ b.sdate ≤ a.sdate)))

theorem string_data_inj {a b : String} (h : a.data = b.data) : a = b := by
  cases a
  cases b
  exact congrArg String.mk h

instance : IsTotal Project projOrder := by
  refine ⟨fun a b => ?_⟩
  rcases lt_trichotomy a.status.data b.status.data with h | h | h
  · exact Or.inl (Or.inl h)
  · rcases Nat.le_total b.sdate a.sdate with hs | hs
    · exact Or.inl (Or.inr ⟨string_data_inj h, hs⟩)
    · exact Or.inr (Or.inr ⟨(string_data_inj h).symm, hs⟩)
  · exact Or.inr (Or.inl h)

instance : IsTrans Project projOrder := by
  refine ⟨fun a b c h1 h2 => ?_⟩
  rcases h1 with h1 | ⟨he1, hs1⟩
  · rcases h2 with h2 | ⟨he2, hs2⟩
    · exact Or.inl (lt_trans h1 h2)
    · exact Or.inl (he2 ▸ h1)
  · rcases h2 with h2 | ⟨he2, hs2⟩
    · exact Or.inl (he1 ▸ h2)
    · exact Or.inr ⟨he1.trans he2, Nat.le_trans hs2 hs1⟩

/-- `COALESCE(lm.Name, 'Unassigned')` over
`PROJECT p LEFT JOIN LAB_MEMBER lm ON p.LeaderMID = lm.MID`
(src/app.py:447-449); MID is the LAB_MEMBER primary key. -/
def renderLeader (db : DB) (p : Project) : String :=
  match db.members.find? (fun m => m.mid == p.leaderMID) with
  | some m => m.name
  | none => "Unassigned"

/-- Embeds `ProjectManager.list_all_projects` (src/app.py:446-456): each
project row joined to the leader name, ordered by status then start date
descending. -/
def list_all_projects (db : DB) : List (Project × String) :=
  (List.insertionSort projOrder db.projects).map (fun p => (p, renderLeader db p))

/-- C9: the project roster contains every project exactly as often as the
table does (it is a permutation of the rendered rows), is ordered by status
and then by start date descending, a leader MID matching no member renders
as "Unassigned", and a resolved leader renders as that member name. -/
theorem projectRoster_sorted_leader_rendering (db : DB) (p : Project)
    (hp : p ∈ db.projects) :
    (p, renderLeader db p) ∈ list_all_projects db ∧
    List.Sorted (fun a b : Project × String => projOrder a.1 b.1)
      (list_all_projects db) ∧
    List.Perm (list_all_projects db)
      (db.projects.map (fun q => (q, renderLeader db q))) ∧
    ((∀ m ∈ db.members, m.mid ≠ p.leaderMID) → renderLeader db p = "Unassigned") ∧
    (∀ m : Member, db.members.find? (fun x => x.mid == p.leaderMID) = some m →
      renderLeader db p = m.name) := by
  refine ⟨?_, ?_, ?_, ?_, ?_⟩
  · exact List.mem_map.mpr ⟨p, (List.mem_insertionSort _).mpr hp, rfl⟩
  · exact List.pairwise_map.mpr (List.sorted_insertionSort projOrder db.projects)
  · exact (List.perm_insertionSort projOrder db.projects).map _
  · intro h
    rw [renderLeader]
    cases hf : db.members.find? (fun m => m.mid == p.leaderMID) with
    | none => rfl
    | some m =>
      have hmem := List.mem_of_find?_eq_some hf
      have hkey := List.find?_some hf
      simp only [beq_iff_eq] at hkey
      exact absurd hkey (h m hmem)
  · intro m hm
    rw [renderLeader, hm]

/-- Witness for C9: a roster with one resolved and one dangling leader. -/
def dbProj : DB :=
  { emptyDB with
    members := [⟨5, "Prof", "Faculty", 0⟩]
    projects := [⟨1, "P1", 10, none, 6, "Active", 99⟩,
                 ⟨2, "P2", 20, none, 6, "Active", 5⟩] }

theorem projectRoster_sorted_leader_rendering_witness :
    ((⟨1, "P1", 10, none, 6, "Active", 99⟩ : Project),
        renderLeader dbProj ⟨1, "P1", 10, none, 6, "Active", 99⟩) ∈
      list_all_projects dbProj ∧
    List.Sorted (fun a b : Project × String => projOrder a.1 b.1)
      (list_all_projects dbProj) ∧
    List.Perm (list_all_projects dbProj)
      (dbProj.projects.map (fun q => (q, renderLeader dbProj q))) ∧
    ((∀ m ∈ dbProj.members,
        m.mid ≠ (Project.leaderMID ⟨1, "P1", 10, none, 6, "Active", 99⟩)) →
      renderLeader dbProj ⟨1, "P1", 10, none, 6, "Active", 99⟩ = "Unassigned") ∧
    (∀ m : Member,
      dbProj.members.find?
          (fun x => x.mid == (Project.leaderMID ⟨1, "P1", 10, none, 6, "Active", 99⟩)) =
        some m →
      renderLeader dbProj ⟨1, "P1", 10, none, 6, "Active", 99⟩ = m.name) :=
  projectRoster_sorted_leader_rendering dbProj ⟨1, "P1", 10, none, 6, "Active", 99⟩
    (by decide)

end ResearchLab
